import Mathlib

/-!
Verification of the FastAPI Redis-Queue background-job demo.

The HTTP handlers and the example job functions are embedded from
`src/main.py` and `src/tasks.py`.  The job store, the queue and the
worker's execution loop live in the third-party `rq` library (invoked
from `src/main.py` and `src/worker.py` but not part of this repository's
sources), so those parts are modelled from the design document's
Store / Queue / Executor contracts, as marked on each definition.
-/

namespace RQDemo

/-- Modelled from the spec: the job lifecycle states of §3 / §4.3
(`queued → running → succeeded | failed`); the `rq` job-state machinery
driven by `src/worker.py` is not part of the repository sources. -/
inductive JobState where
  | queued
  | running
  | succeeded
  | failed
deriving DecidableEq, Repr

/-- Modelled from the spec: the durable job record of §3 (id and
timestamps elided; `result` present only on success, `error` only on
failure).  The concrete store is Redis, managed by `rq`, not in `src/`. -/
structure Job (V : Type) where
  state : JobState
  result : Option V
  error : Option String
deriving DecidableEq, Repr

/-- The spec's §3 record invariant: `result` present iff the state is
`succeeded`, `error` present iff the state is `failed`. -/
def WellFormed {V : Type} (j : Job V) : Prop :=
  (j.result.isSome ↔ j.state = JobState.succeeded) ∧
  (j.error.isSome ↔ j.state = JobState.failed)

/-- The view of a job that `src/main.py:get_task_status` reads off an
`rq` job handle: the four status flags it consults (`is_finished`,
`is_failed`, `is_started`, `is_queued`), the stored return value and the
stored failure information. -/
structure RQJobView (V : Type) where
  is_finished : Bool
  is_failed : Bool
  is_started : Bool
  is_queued : Bool
  result : Option V
  exc_info : Option String

/-- Modelled from the spec: how the four `rq` status flags arise from the
lifecycle state of §4.3 (`finished` ↔ succeeded, `failed` ↔ failed,
`started` ↔ running, `queued` ↔ queued). -/
def viewOf {V : Type} (j : Job V) : RQJobView V :=
  { is_finished := decide (j.state = JobState.succeeded)
    is_failed := decide (j.state = JobState.failed)
    is_started := decide (j.state = JobState.running)
    is_queued := decide (j.state = JobState.queued)
    result := j.result
    exc_info := j.error }

/-- `TaskStatusResponse` of `src/main.py` (lines 38-42): `result` and
`error` default to `None` and are omitted from the JSON when absent. -/
structure TaskStatusResponse (V : Type) where
  task_id : String
  status : String
  result : Option V
  error : Option String
deriving DecidableEq, Repr

/-- The branch cascade of `src/main.py:get_task_status` (lines 110-140)
once the job was fetched: `is_finished` → `completed` with the result,
`is_failed` → `failed` with `str(exc_info)` or `"Unknown error"` when
`exc_info` is falsy (`None` or the empty string), `is_started` →
`in_progress`, `is_queued` → `pending`, otherwise `unknown`. -/
def projectView {V : Type} (task_id : String) (v : RQJobView V) :
    TaskStatusResponse V :=
  if v.is_finished then
    { task_id := task_id, status := "completed", result := v.result, error := none }
  else if v.is_failed then
    { task_id := task_id, status := "failed", result := none
      error := some (match v.exc_info with
        | some e => if e = "" then "Unknown error" else e
        | none => "Unknown error") }
  else if v.is_started then
    { task_id := task_id, status := "in_progress", result := none, error := none }
  else if v.is_queued then
    { task_id := task_id, status := "pending", result := none, error := none }
  else
    { task_id := task_id, status := "unknown", result := none, error := none }

/-- The producer/consumer system state: the Store keyed by job id and the
Queue of pending job ids (spec §2; the backend is Redis via `rq`). -/
structure System (V : Type) where
  store : String → Option (Job V)
  queue : List String

/-- An `HTTPException`: status code and detail string. -/
structure HTTPError where
  status_code : Nat
  detail : String
deriving DecidableEq, Repr

/-- `src/main.py:get_task_status` (lines 104-143): fetch the job by id;
a missing id (rq's `Job.fetch` raising "No such job") becomes a 404 with
detail "Task not found"; otherwise the fetched job is projected through
the status branch cascade. -/
def get_task_status {V : Type} (sys : System V) (task_id : String) :
    Except HTTPError (TaskStatusResponse V) :=
  match sys.store task_id with
  | none => Except.error { status_code := 404, detail := "Task not found" }
  | some j => Except.ok (projectView task_id (viewOf j))

/-- `get_task_status` together with the system state it leaves behind:
the handler only reads from the store (rq `Job.fetch`), so the state
component is returned unchanged. -/
def get_task_status_run {V : Type} (sys : System V) (task_id : String) :
    Except HTTPError (TaskStatusResponse V) × System V :=
  (get_task_status sys task_id, sys)

/-- Modelled from the spec: §4.4 Dispatcher, realised by `queue.enqueue`
inside `src/main.py:enqueue_prime_task` (lines 65-76): create the job
record in state `queued` in the Store, push the id onto the Queue,
return the id synchronously.  Id generation (uuid inside `rq`) is passed
in as the fresh id. -/
def submit {V : Type} (sys : System V) (id : String) : String × System V :=
  (id,
   { store := fun i =>
       if i = id then some { state := JobState.queued, result := none, error := none }
       else sys.store i
     queue := sys.queue ++ [id] })

/-- Modelled from the spec: §4.3 steps 2-5 of the Executor, run by the
`rq` worker started in `src/worker.py:main`: a popped job still in state
`queued` is run; a normal return `v` ends in `succeeded` with
`result = v`, a caught failure with message `m` ends in `failed` with
`error = m` (the failure never escapes the worker); a stale or already
terminal record is dropped unchanged. -/
def executeJob {V : Type} (outcome : Except String V) (j : Job V) : Job V :=
  if j.state = JobState.queued then
    match outcome with
    | Except.ok v => { state := JobState.succeeded, result := some v, error := none }
    | Except.error m => { state := JobState.failed, result := none, error := some m }
  else j

/-- Modelled from the spec: the atomic lifecycle transitions of §4.3
(`queued → running`, `running → succeeded`, `running → failed`). -/
inductive Step : JobState → JobState → Prop where
  | toRunning : Step JobState.queued JobState.running
  | toSucceeded : Step JobState.running JobState.succeeded
  | toFailed : Step JobState.running JobState.failed

/-- Zero or more lifecycle transitions: what may happen to a job between
two successive polls of the status endpoint. -/
def Reaches : JobState → JobState → Prop := Relation.ReflTransGen Step

/-- Position of a state along the lifecycle. -/
def stateRank : JobState → Nat
  | JobState.queued => 0
  | JobState.running => 1
  | JobState.succeeded => 2
  | JobState.failed => 2

/-- Collapse adjacent repetitions of a polled state sequence: repeated
observations of one state count once. -/
def collapse : List JobState → List JobState
  | [] => []
  | [a] => [a]
  | a :: b :: rest =>
    if a = b then collapse (b :: rest) else a :: collapse (b :: rest)

/-- The lifecycle sequence still ahead of a state, on the success path. -/
def suffS : JobState → List JobState
  | JobState.queued => [JobState.queued, JobState.running, JobState.succeeded]
  | JobState.running => [JobState.running, JobState.succeeded]
  | JobState.succeeded => [JobState.succeeded]
  | JobState.failed => []

/-- The lifecycle sequence still ahead of a state, on the failure path. -/
def suffF : JobState → List JobState
  | JobState.queued => [JobState.queued, JobState.running, JobState.failed]
  | JobState.running => [JobState.running, JobState.failed]
  | JobState.succeeded => []
  | JobState.failed => [JobState.failed]

lemma step_cases {a b : JobState} (h : Step a b) :
    (a = JobState.queued ∧ b = JobState.running) ∨
    (a = JobState.running ∧ b = JobState.succeeded) ∨
    (a = JobState.running ∧ b = JobState.failed) := by
  cases h <;> simp

lemma reaches_cases {a b : JobState} (h : Reaches a b) :
    a = b ∨
    (a = JobState.queued ∧ b = JobState.running) ∨
    (a = JobState.running ∧ b = JobState.succeeded) ∨
    (a = JobState.running ∧ b = JobState.failed) ∨
    (a = JobState.queued ∧ (b = JobState.succeeded ∨ b = JobState.failed)) := by
  induction h with
  | refl => exact Or.inl rfl
  | tail h1 h2 ih =>
    rcases step_cases h2 with ⟨rfl, rfl⟩ | ⟨rfl, rfl⟩ | ⟨rfl, rfl⟩ <;>
      rcases ih with rfl | ⟨rfl, h3⟩ | ⟨rfl, h3⟩ | ⟨rfl, h3⟩ | ⟨rfl, h3⟩ <;>
      simp_all

lemma collapse_chain : ∀ (l : List JobState) (a : JobState),
    List.Chain' Reaches (a :: l) →
    List.Sublist (collapse (a :: l)) (suffS a) ∨
    List.Sublist (collapse (a :: l)) (suffF a) := by
  intro l
  induction l with
  | nil =>
    intro a _
    cases a <;> simp [collapse, suffS, suffF]
  | cons b rest ih =>
    intro a hch
    rw [List.chain'_cons] at hch
    obtain ⟨hab, hch⟩ := hch
    by_cases heq : a = b
    · subst heq
      rw [show collapse (a :: a :: rest) = collapse (a :: rest) from by
        simp [collapse]]
      exact ih a hch
    · have hx := ih b hch
      rw [show collapse (a :: b :: rest) = a :: collapse (b :: rest) from by
        simp [collapse, heq]]
      rcases reaches_cases hab with rfl | ⟨rfl, rfl⟩ | ⟨rfl, rfl⟩ | ⟨rfl, rfl⟩ |
        ⟨rfl, h3⟩
      · exact absurd rfl heq
      · rcases hx with hx | hx
        · exact Or.inl (List.Sublist.cons₂ _ hx)
        · exact Or.inr (List.Sublist.cons₂ _ hx)
      · rcases hx with hx | hx
        · exact Or.inl (List.Sublist.cons₂ _ hx)
        · exact Or.inr (List.Sublist.cons₂ _ (hx.trans (List.nil_sublist _)))
      · rcases hx with hx | hx
        · exact Or.inl (List.Sublist.cons₂ _ (hx.trans (List.nil_sublist _)))
        · exact Or.inr (List.Sublist.cons₂ _ hx)
      · rcases h3 with rfl | rfl
        · rcases hx with hx | hx
          · exact Or.inl (List.Sublist.cons₂ _
              (hx.trans (List.Sublist.cons _ (List.Sublist.refl _))))
          · exact Or.inl (List.Sublist.cons₂ _ (hx.trans (List.nil_sublist _)))
        · rcases hx with hx | hx
          · exact Or.inr (List.Sublist.cons₂ _ (hx.trans (List.nil_sublist _)))
          · exact Or.inr (List.Sublist.cons₂ _
              (hx.trans (List.Sublist.cons _ (List.Sublist.refl _))))

lemma suffS_sublist (a : JobState) :
    List.Sublist (suffS a) [JobState.queued, JobState.running, JobState.succeeded] := by
  cases a <;> decide

lemma suffF_sublist (a : JobState) :
    List.Sublist (suffF a) [JobState.queued, JobState.running, JobState.failed] := by
  cases a <;> decide

/-- C1: for every well-formed job record, the status projection has its
`result` field present iff the job's state is `succeeded` (reported as
`completed`) and its `error` field present iff the state is `failed`;
neither is present for `queued` or `running`. -/
theorem status_result_error_presence {V : Type} (task_id : String) (j : Job V)
    (h : WellFormed j) :
    ((projectView task_id (viewOf j)).result.isSome ↔
      j.state = JobState.succeeded) ∧
    ((projectView task_id (viewOf j)).error.isSome ↔
      j.state = JobState.failed) := by
  obtain ⟨hr, he⟩ := h
  cases hst : j.state <;> simp_all [projectView, viewOf]

/-- A concrete succeeded job, used only to witness C1. -/
def doneJob : Job Nat :=
  { state := JobState.succeeded, result := some 42, error := none }

theorem status_result_error_presence_witness :
    WellFormed doneJob ∧
    (((projectView "t" (viewOf doneJob)).result.isSome ↔
      doneJob.state = JobState.succeeded) ∧
     ((projectView "t" (viewOf doneJob)).error.isSome ↔
      doneJob.state = JobState.failed)) :=
  ⟨⟨by simp [doneJob], by simp [doneJob]⟩,
   status_result_error_presence "t" doneJob
     ⟨by simp [doneJob], by simp [doneJob]⟩⟩

/-- C2: the states a poller can observe evolve along the lifecycle only:
any sequence of observations linked by zero-or-more transitions is, after
collapsing repeats, a subsequence of `queued, running, succeeded` or of
`queued, running, failed`; every single transition strictly advances the
lifecycle (no reversal, no out-of-order observation), and the only
transition out of `queued` is into `running` (execution never skips
`running`). -/
theorem observed_states_follow_lifecycle :
    (∀ l : List JobState, List.Chain' Reaches l →
      List.Sublist (collapse l)
        [JobState.queued, JobState.running, JobState.succeeded] ∨
      List.Sublist (collapse l)
        [JobState.queued, JobState.running, JobState.failed]) ∧
    (∀ a b : JobState, Step a b → stateRank a < stateRank b) ∧
    (∀ b : JobState, Step JobState.queued b → b = JobState.running) ∧
    (∀ b : JobState, ¬ Step JobState.succeeded b ∧ ¬ Step JobState.failed b) := by
  refine ⟨?_, ?_, ?_, ?_⟩
  · intro l hch
    match l with
    | [] => exact Or.inl (List.nil_sublist _)
    | a :: t =>
      rcases collapse_chain t a hch with hx | hx
      · exact Or.inl (hx.trans (suffS_sublist a))
      · exact Or.inr (hx.trans (suffF_sublist a))
  · intro a b h
    cases h <;> simp [stateRank]
  · intro b h
    cases h
    rfl
  · intro b
    constructor <;> intro h <;> cases h

theorem observed_states_follow_lifecycle_witness :
    List.Sublist
      (collapse [JobState.queued, JobState.queued, JobState.running,
        JobState.succeeded])
      [JobState.queued, JobState.running, JobState.succeeded] ∨
    List.Sublist
      (collapse [JobState.queued, JobState.queued, JobState.running,
        JobState.succeeded])
      [JobState.queued, JobState.running, JobState.failed] :=
  observed_states_follow_lifecycle.1 _
    (List.chain'_cons.mpr ⟨Relation.ReflTransGen.refl,
      List.chain'_cons.mpr ⟨Relation.ReflTransGen.single Step.toRunning,
        List.chain'_cons.mpr ⟨Relation.ReflTransGen.single Step.toSucceeded,
          List.chain'_singleton _⟩⟩⟩)

/-- C3: an id with no record in the store — one never created by a
submit — makes the status endpoint answer exactly HTTP 404 with detail
"Task not found". -/
theorem unknown_id_returns_404 {V : Type} (sys : System V) (task_id : String)
    (h : sys.store task_id = none) :
    get_task_status sys task_id =
      Except.error { status_code := 404, detail := "Task not found" } := by
  simp [get_task_status, h]

/-- A system with an empty store, used only to witness C3. -/
def emptySystem : System Nat := { store := fun _ => none, queue := [] }

theorem unknown_id_returns_404_witness :
    emptySystem.store "not-a-real-id" = none ∧
    get_task_status emptySystem "not-a-real-id" =
      Except.error { status_code := 404, detail := "Task not found" } :=
  ⟨rfl, unknown_id_returns_404 emptySystem "not-a-real-id" rfl⟩

/-- C4: a queued job whose function fails with (non-empty) message `m` is
caught by the executor: the record reaches terminal state `failed`, its
`result` stays absent, its stored `error` is `m`, and the status endpoint
reports `m` in its `error` field with `result` absent. -/
theorem failing_job_reaches_failed {V : Type} (task_id m : String) (j : Job V)
    (hq : j.state = JobState.queued) (hm : m ≠ "") :
    (executeJob (Except.error m) j).state = JobState.failed ∧
    (executeJob (Except.error m) j).result = none ∧
    (executeJob (Except.error m) j).error = some m ∧
    (projectView task_id (viewOf (executeJob (Except.error m) j))).error =
      some m ∧
    (projectView task_id (viewOf (executeJob (Except.error m) j))).result =
      none := by
  simp [executeJob, hq, projectView, viewOf, hm]

/-- A concrete freshly queued job, used only to witness C4. -/
def queuedJob : Job Nat :=
  { state := JobState.queued, result := none, error := none }

theorem failing_job_reaches_failed_witness :
    queuedJob.state = JobState.queued ∧
    ("boom" : String) ≠ "" ∧
    ((executeJob (Except.error "boom") queuedJob).state = JobState.failed ∧
     (executeJob (Except.error "boom") queuedJob).result = none ∧
     (executeJob (Except.error "boom") queuedJob).error = some "boom" ∧
     (projectView "t" (viewOf (executeJob (Except.error "boom")
        queuedJob))).error = some "boom" ∧
     (projectView "t" (viewOf (executeJob (Except.error "boom")
        queuedJob))).result = none) :=
  ⟨rfl, by decide,
   failing_job_reaches_failed "t" "boom" queuedJob rfl (by decide)⟩

/-- C5: submit creates the job record in state `queued` in the store,
appends the id to the queue, and returns the id synchronously; a status
query on that id before any execution returns the queued state
(reported as `pending`). -/
theorem submit_then_status_queued {V : Type} (sys : System V) (id : String) :
    (submit sys id).1 = id ∧
    (submit sys id).2.store id =
      some { state := JobState.queued, result := none, error := none } ∧
    id ∈ (submit sys id).2.queue ∧
    get_task_status (submit sys id).2 id =
      Except.ok { task_id := id, status := "pending", result := none
                  error := none } := by
  refine ⟨rfl, by simp [submit], by simp [submit], ?_⟩
  simp [get_task_status, submit, projectView, viewOf]

/-- C6: the status endpoint is a pure read: it leaves the system state
(store and queue) unchanged, and two successive calls with no
intervening execution return identical responses. -/
theorem status_pure_read {V : Type} (sys : System V) (task_id : String) :
    (get_task_status_run sys task_id).2 = sys ∧
    (get_task_status_run ((get_task_status_run sys task_id).2) task_id).1 =
      (get_task_status_run sys task_id).1 :=
  ⟨rfl, rfl⟩

/-- C7: for every existing job the reported status string is one of
exactly four values — `pending`, `in_progress`, `completed`, `failed`
(the front-end projections of `queued`, `running`, `succeeded`,
`failed`); the `unknown` branch of the handler is never taken. -/
theorem status_values {V : Type} (task_id : String) (j : Job V) :
    (projectView task_id (viewOf j)).status ∈
      (["pending", "in_progress", "completed", "failed"] : List String) := by
  cases h : j.state <;> simp [projectView, viewOf, h]

/-! Example job functions, embedded from `src/tasks.py`.  Python's
arbitrary-precision `int` is `Int`; wall-clock `execution_time` fields
are omitted (or passed in) since they measure real time. -/

/-- Python `range(start, end + 1)`: the integers from `start` to `stop`
inclusive, in increasing order. -/
def intRange (start stop : Int) : List Int :=
  (List.range (stop + 1 - start).toNat).map (fun (k : Nat) => start + (k : Int))

/-- Fuel-driven scan for the integer square root: raise `k` while
`(k + 1)²` still fits under `n`. -/
def isqrtGo (n : Nat) : Nat → Nat → Nat
  | 0, k => k
  | fuel + 1, k =>
    if (k + 1) * (k + 1) ≤ n then isqrtGo n fuel (k + 1) else k

/-- The exact integer square root (an executable equivalent of
`Nat.sqrt`, see `isqrt_eq_sqrt`). -/
def isqrt (n : Nat) : Nat := isqrtGo n n 0

/-- The `is_prime` inner helper of `src/tasks.py:find_primes_in_range`
(lines 25-35): trial division by the odd numbers produced by
`range(3, int(math.sqrt(n)) + 1, 2)`.  `int(math.sqrt(n))` is embedded
as the exact integer square root, which is an idealization of the
source: the floating-point `math.sqrt` truncates to one below the exact
root for some `n = p²` beyond `2^106` (so the source then misses the
divisor `p` and misreports `p²` as prime), and raises `OverflowError`
for `n ≥ 2^1024`.  This embedding therefore describes the intended
arithmetic, not the source's float behaviour at such magnitudes. -/
def is_prime (n : Int) : Bool :=
  if n < 2 then false
  else if n = 2 then true
  else if n % 2 = 0 then false
  else
    (List.range' 3 ((isqrt n.toNat - 1) / 2) 2).all
      (fun i => decide (n.toNat % i ≠ 0))

/-- The dictionary returned by `find_primes_in_range` (`execution_time`,
a wall-clock measurement, omitted). -/
structure PrimesResult where
  primes : List Int
  count : Nat
  range : String
deriving Repr

/-- `src/tasks.py:find_primes_in_range` (lines 11-49): collect every
number of the inclusive range passing `is_prime`, report the list, its
length and the queried range. -/
def find_primes_in_range (start stop : Int) : PrimesResult :=
  let primes := (intRange start stop).filter is_prime
  { primes := primes
    count := primes.length
    range := toString start ++ "-" ++ toString stop }

/-- The `for` loop of `fib_iterative` (`src/tasks.py` lines 73-81):
`k` remaining iterations of `a, b = b, a + b`. -/
def fibStep : Nat → Int × Int → Int × Int
  | 0, p => p
  | k + 1, p => fibStep k (p.2, p.1 + p.2)

/-- The `fib_iterative` inner helper of `src/tasks.py:calculate_fibonacci`
(lines 71-81): positions `≤ 1` are returned as is; otherwise the loop
over `range(2, num + 1)` runs the update `num - 1` times starting from
`(0, 1)` and returns the second component. -/
def fib_iterative (num : Int) : Int :=
  if num ≤ 1 then num else (fibStep (num - 1).toNat (0, 1)).2

/-- The `fib_recursive` inner helper of `src/tasks.py:calculate_fibonacci`
(lines 64-67): naive double recursion with `num <= 1` returning `num`. -/
def fib_recursive (num : Int) : Int :=
  if num ≤ 1 then num
  else fib_recursive (num - 1) + fib_recursive (num - 2)
termination_by num.toNat
decreasing_by all_goals omega

/-- The dictionary returned by `calculate_fibonacci` (`execution_time`
omitted). -/
structure FibonacciResult where
  fibonacci_number : Int
  position : Int
deriving Repr

/-- `src/tasks.py:calculate_fibonacci` (lines 52-93): the efficient
iterative branch for `n ≤ 30`, the slow recursive branch for `n > 30`. -/
def calculate_fibonacci (n : Int) : FibonacciResult :=
  { fibonacci_number := if n ≤ 30 then fib_iterative n else fib_recursive n
    position := n }

/-- The 15 cities queried by `src/tasks.py:fetch_weather_for_cities`
(lines 115-131). -/
def cities : List String :=
  ["London,UK", "New York,US", "Tokyo,JP", "Paris,FR", "Sydney,AU",
   "Mumbai,IN", "São Paulo,BR", "Cairo,EG", "Moscow,RU", "Cape Town,ZA",
   "Toronto,CA", "Berlin,DE", "Bangkok,TH", "Mexico City,MX",
   "Buenos Aires,AR"]

/-- The dictionary returned by `fetch_weather_for_cities`: the missing-key
branch fills `error`, `cities_data` and `execution_time` only, the fetch
branch fills the request statistics instead. -/
structure WeatherResult where
  error : Option String
  cities_data : List String
  successful_requests : Option Nat
  failed_requests : Option (List String)
  total_cities_attempted : Option Nat
  execution_time : Int
deriving Repr

/-- The message of `src/tasks.py` line 106. -/
def apiKeyMissingMessage : String :=
  "OpenWeatherMap API key not found. Set OPENWEATHER_API_KEY environment variable."

/-- The early-return record of `src/tasks.py` lines 105-109. -/
def missingKeyResult : WeatherResult :=
  { error := some apiKeyMissingMessage
    cities_data := []
    successful_requests := none
    failed_requests := none
    total_cities_attempted := none
    execution_time := 0 }

/-- `src/tasks.py:fetch_weather_for_cities` (lines 95-178) over an
explicit environment and network: `api_key` is `os.getenv`'s value
(Python's `if not api_key` also fires on an empty string), `http` is the
per-city request (`none` for a non-200 or raising request, whose city is
recorded under `failed_requests`), `elapsed` the wall clock of the fetch
branch.  The second component counts HTTP requests issued — one per city
in the fetch branch, none in the missing-key branch. -/
def fetch_weather_for_cities (api_key : Option String)
    (http : String → Option String) (elapsed : Int) : WeatherResult × Nat :=
  match api_key with
  | none => (missingKeyResult, 0)
  | some k =>
    if k = "" then (missingKeyResult, 0)
    else
      let fetched := cities.filterMap http
      ({ error := none
         cities_data := fetched
         successful_requests := some fetched.length
         failed_requests := some (cities.filter (fun c => (http c).isNone))
         total_cities_attempted := some cities.length
         execution_time := elapsed }, cities.length)

/-- `src/tasks.py:fetch_weather_for_cities_sync` (lines 181-186):
`asyncio.run` around the async function — the identity on its value. -/
def fetch_weather_for_cities_sync (api_key : Option String)
    (http : String → Option String) (elapsed : Int) : WeatherResult × Nat :=
  fetch_weather_for_cities api_key http elapsed

lemma isqrtGo_eq_sqrt (n : Nat) : ∀ (fuel k : Nat), k ≤ Nat.sqrt n →
    Nat.sqrt n ≤ k + fuel → isqrtGo n fuel k = Nat.sqrt n := by
  intro fuel
  induction fuel with
  | zero => intro k h1 h2; simp [isqrtGo]; omega
  | succ fuel ih =>
    intro k h1 h2
    rw [isqrtGo]
    by_cases h : (k + 1) * (k + 1) ≤ n
    · rw [if_pos h]
      exact ih (k + 1) (Nat.le_sqrt.mpr h) (by omega)
    · rw [if_neg h]
      have : Nat.sqrt n < k + 1 := Nat.sqrt_lt.mpr (by omega)
      omega

lemma isqrt_eq_sqrt (n : Nat) : isqrt n = Nat.sqrt n :=
  isqrtGo_eq_sqrt n n 0 (Nat.zero_le _) (by simpa using Nat.sqrt_le_self n)

lemma mem_intRange {start stop p : Int} :
    p ∈ intRange start stop ↔ start ≤ p ∧ p ≤ stop := by
  simp only [intRange, List.mem_map, List.mem_range]
  constructor
  · rintro ⟨k, hk, rfl⟩
    omega
  · rintro ⟨h1, h2⟩
    exact ⟨(p - start).toNat, by omega, by omega⟩

lemma is_prime_iff (n : Int) :
    is_prime n = true ↔ 2 ≤ n ∧ Nat.Prime n.toNat := by
  unfold is_prime
  by_cases h1 : n < 2
  · simp only [if_pos h1]
    constructor
    · intro h; cases h
    · rintro ⟨h2, -⟩; omega
  · rw [if_neg h1]
    by_cases h2 : n = 2
    · subst h2
      simp [Nat.prime_two]
    · rw [if_neg h2]
      by_cases h3 : n % 2 = 0
      · rw [if_pos h3]
        constructor
        · intro h; cases h
        · rintro ⟨-, hp⟩
          have hdvd : 2 ∣ n.toNat := by omega
          rcases hp.eq_one_or_self_of_dvd 2 hdvd with h | h <;> omega
      · rw [if_neg h3]
        rw [isqrt_eq_sqrt, List.all_eq_true]
        have hm3 : 3 ≤ n.toNat := by omega
        have hmodd : n.toNat % 2 = 1 := by omega
        constructor
        · intro hall
          refine ⟨by omega, Nat.prime_def_le_sqrt.mpr ⟨by omega, ?_⟩⟩
          intro k hk2 hksqrt hdvd
          by_cases hke : k % 2 = 0
          · have h2d : 2 ∣ n.toNat :=
              dvd_trans (Nat.dvd_of_mod_eq_zero hke) hdvd
            omega
          · have hk3 : 3 ≤ k := by omega
            have hmem : k ∈ List.range' 3 ((Nat.sqrt n.toNat - 1) / 2) 2 :=
              List.mem_range'.mpr ⟨(k - 3) / 2, by omega, by omega⟩
            have := hall k hmem
            rw [decide_eq_true_iff] at this
            exact this (Nat.mod_eq_zero_of_dvd hdvd)
        · rintro ⟨-, hp⟩ i hi
          rw [decide_eq_true_iff]
          obtain ⟨j, hj, rfl⟩ := List.mem_range'.mp hi
          intro hmod
          have hdvd : (3 + 2 * j) ∣ n.toNat := Nat.dvd_of_mod_eq_zero hmod
          have hsqlt : Nat.sqrt n.toNat < n.toNat :=
            Nat.sqrt_lt_self (by omega)
          rcases hp.eq_one_or_self_of_dvd _ hdvd with h | h <;> omega

/-- Under the exact-square-root idealization of `math.sqrt` (see
`is_prime`), `find_primes_in_range(start, end)` returns under `primes`
exactly the prime numbers `p` with `start ≤ p ≤ end`, in strictly
increasing order, and under `count` the length of that list: the
intended behaviour, which the source's floating-point square root
breaks beyond `2^106`. -/
theorem find_primes_in_range_exact_sqrt (start stop : Int) :
    (∀ p : Int, p ∈ (find_primes_in_range start stop).primes ↔
      (start ≤ p ∧ p ≤ stop ∧ 2 ≤ p ∧ Nat.Prime p.toNat)) ∧
    (find_primes_in_range start stop).primes.Pairwise (· < ·) ∧
    (find_primes_in_range start stop).count =
      (find_primes_in_range start stop).primes.length := by
  refine ⟨?_, ?_, rfl⟩
  · intro p
    simp only [find_primes_in_range, List.mem_filter, mem_intRange,
      is_prime_iff]
    constructor
    · rintro ⟨⟨ha, hb⟩, hc, hd⟩
      exact ⟨ha, hb, hc, hd⟩
    · rintro ⟨ha, hb, hc, hd⟩
      exact ⟨⟨ha, hb⟩, hc, hd⟩
  · apply List.Pairwise.filter
    unfold intRange
    refine List.Pairwise.map _ (fun a b hab => ?_) (List.pairwise_lt_range _)
    omega

lemma fibStep_fib (k : Nat) : ∀ i : Nat,
    fibStep k ((Nat.fib i : Int), (Nat.fib (i + 1) : Int)) =
      ((Nat.fib (i + k) : Int), (Nat.fib (i + k + 1) : Int)) := by
  induction k with
  | zero => intro i; simp [fibStep]
  | succ k ih =>
    intro i
    have h2 : (Nat.fib i : Int) + (Nat.fib (i + 1) : Int) =
        (Nat.fib (i + 2) : Int) := by
      rw [show i + 2 = i + 2 from rfl, Nat.fib_add_two]
      push_cast
      ring
    calc fibStep (k + 1) ((Nat.fib i : Int), (Nat.fib (i + 1) : Int))
        = fibStep k ((Nat.fib (i + 1) : Int), (Nat.fib (i + 1 + 1) : Int)) := by
          simp only [fibStep]
          rw [h2]
      _ = ((Nat.fib (i + 1 + k) : Int), (Nat.fib (i + 1 + k + 1) : Int)) :=
          ih (i + 1)
      _ = ((Nat.fib (i + (k + 1)) : Int), (Nat.fib (i + (k + 1) + 1) : Int)) := by
          rw [show i + 1 + k = i + (k + 1) from by omega]

lemma fib_iterative_eq (n : Int) (h : 0 ≤ n) :
    fib_iterative n = (Nat.fib n.toNat : Int) := by
  unfold fib_iterative
  by_cases h1 : n ≤ 1
  · rw [if_pos h1]
    have : n = 0 ∨ n = 1 := by omega
    rcases this with rfl | rfl <;> simp
  · rw [if_neg h1]
    have h0 : ((0 : Int), (1 : Int)) =
        ((Nat.fib 0 : Int), (Nat.fib (0 + 1) : Int)) := by norm_num
    rw [h0, fibStep_fib]
    rw [show 0 + (n - 1).toNat + 1 = n.toNat from by omega]

lemma fib_recursive_eq : ∀ (k : Nat) (n : Int), 0 ≤ n → n.toNat = k →
    fib_recursive n = (Nat.fib n.toNat : Int) := by
  intro k
  induction k using Nat.strong_induction_on with
  | _ k ih =>
    intro n hn hk
    rw [fib_recursive]
    by_cases h1 : n ≤ 1
    · rw [if_pos h1]
      have : n = 0 ∨ n = 1 := by omega
      rcases this with rfl | rfl <;> simp
    · rw [if_neg h1]
      have e1 := ih (n - 1).toNat (by omega) (n - 1) (by omega) rfl
      have e2 := ih (n - 2).toNat (by omega) (n - 2) (by omega) rfl
      rw [e1, e2]
      rw [show n.toNat = (n - 2).toNat + 2 from by omega, Nat.fib_add_two]
      rw [show (n - 1).toNat = (n - 2).toNat + 1 from by omega]
      push_cast
      ring

/-- C9: for every position `n ≥ 0` the iterative branch (taken when
`n ≤ 30`) and the recursive branch (taken when `n > 30`) of
`calculate_fibonacci` agree, and the returned `fibonacci_number` is the
mathematical `n`-th Fibonacci number whichever branch runs. -/
theorem calculate_fibonacci_correct (n : Int) (h : 0 ≤ n) :
    fib_iterative n = fib_recursive n ∧
    (calculate_fibonacci n).fibonacci_number = (Nat.fib n.toNat : Int) := by
  have hi := fib_iterative_eq n h
  have hr := fib_recursive_eq n.toNat n h rfl
  refine ⟨by rw [hi, hr], ?_⟩
  unfold calculate_fibonacci
  by_cases h30 : n ≤ 30 <;> simp only [h30, if_pos, if_neg, if_true, if_false,
    not_false_iff] <;> simp [h30, hi, hr]

theorem calculate_fibonacci_correct_witness :
    (0 : Int) ≤ 10 ∧
    (fib_iterative 10 = fib_recursive 10 ∧
     (calculate_fibonacci 10).fibonacci_number =
       (Nat.fib (10 : Int).toNat : Int)) :=
  ⟨by decide, calculate_fibonacci_correct 10 (by decide)⟩

/-- C10: with the `OPENWEATHER_API_KEY` environment variable unset, the
weather task and its sync wrapper return the record carrying the api-key
error message, an empty `cities_data` list and `execution_time` 0, and
issue no HTTP request at all. -/
theorem weather_no_key (http : String → Option String) (elapsed : Int) :
    (fetch_weather_for_cities none http elapsed).1.error =
      some apiKeyMissingMessage ∧
    (fetch_weather_for_cities none http elapsed).1.cities_data = [] ∧
    (fetch_weather_for_cities none http elapsed).1.execution_time = 0 ∧
    (fetch_weather_for_cities none http elapsed).2 = 0 ∧
    fetch_weather_for_cities_sync none http elapsed =
      fetch_weather_for_cities none http elapsed :=
  ⟨rfl, rfl, rfl, rfl, rfl⟩

end RQDemo
